import Mathlib

/-!
# SlopeSniper trading core: a shallow embedding, checked against its specification

This file embeds the deterministic parts of the SlopeSniper trading core in
Lean 4 and proves (or refutes) the quantified properties stated in the
project's specification.  Each embedded definition is a direct translation of
the corresponding Python function; Python floats are modelled as exact
rationals (`ℚ`), Python ints as `Int`, SQLite tables as Lean lists of row
structures, and fallible operations as `Except`/`Option` results.
-/

namespace SlopeSniper

/-! ## Policy engine (`tools/policy.py`)

`check_policy` runs the deterministic pre-trade gates.  The Python function
accumulates human-readable strings in `checks_passed` / `checks_failed`; we
model each appended string by a tag naming the check, keeping the order and
the branch structure of the source.
-/

/-- Tags for the entries appended to `checks_passed` / `checks_failed` by
`check_policy`.  Each constructor corresponds to one `append` site in the
Python source. -/
inductive CheckTag where
  | slippage
  | tradeSize
  | fromMintDeny
  | toMintDeny
  | fromMintAllow
  | toMintAllow
  | rugcheckScore
  | mintAuthority
  | freezeAuthority
  | rugcheckRequired
  deriving DecidableEq, Repr

/-- `PolicyConfig` with the safe defaults from `tools/config.py`. -/
structure PolicyConfig where
  MAX_SLIPPAGE_BPS : Int := 100
  MAX_TRADE_USD : ℚ := 50
  MIN_RUGCHECK_SCORE : Int := 2000
  REQUIRE_MINT_DISABLED : Bool := true
  REQUIRE_FREEZE_DISABLED : Bool := true
  DENY_MINTS : List String := []
  ALLOW_MINTS : List String := []
  deriving Repr

/-- The `summary` sub-object of a rugcheck report: each authority field is
either `null` (disabled) or some authority address. -/
structure RugSummary where
  mintAuthority : Option String := none
  freezeAuthority : Option String := none
  deriving DecidableEq, Repr

/-- A rugcheck API result: `score` may be missing (`dict.get` returns `None`),
`summary` defaults to the empty dict. -/
structure RugcheckResult where
  score : Option Int := none
  summary : RugSummary := {}
  deriving DecidableEq, Repr

/-- Result of `check_policy` (the formatted `reason` string is omitted; it is
derived from `checks_failed`). -/
structure PolicyResult where
  allowed : Bool
  checks_passed : List CheckTag
  checks_failed : List CheckTag
  deriving DecidableEq, Repr

/-- `KNOWN_SAFE_MINTS`: well-known tokens that skip rugcheck. -/
def KNOWN_SAFE_MINTS : List String :=
  [ "So11111111111111111111111111111111111111112"
  , "EPjFWdd5AufqSSqeM2qN1xzybapC8G4wEGGkZwyTDt1v"
  , "Es9vMFrzaCERmJfrF4H2FYD4KCoNkY11McCe8BenwNYB"
  , "mSoLzYCxHdYgdzU16g5QSh3i5K3z3KZK7ytfqcJm7So"
  , "7dHbWXmci3dT8UFYWYZweBLXgycu7Y3iL6trKn1Y7ARj"
  , "DezXAZ8z7PnrnRJjz3wXBoRgixCa6xjnB7YaB1pPB263"
  , "JUPyiwrYJFskUPiHa7hkeR8VUtAeFoSYbKedZNsDvCN" ]

/-- The rugcheck section of `check_policy` (step 5 in the source): returns the
pair `(passed, failed)` of tags appended by that section.  The Python guard
`if rugcheck_result:` is falsy for `None`; we model the provided-and-truthy
dict as `some r`. -/
def rugcheckSection (to_mint : String) (rugcheck_result : Option RugcheckResult)
    (config : PolicyConfig) : List CheckTag × List CheckTag :=
  if KNOWN_SAFE_MINTS.contains to_mint then ([], [])
  else
    match rugcheck_result with
    | some r =>
        let scoreP : List CheckTag :=
          match r.score with
          | some s => if s > config.MIN_RUGCHECK_SCORE then [] else [.rugcheckScore]
          | none => []
        let scoreF : List CheckTag :=
          match r.score with
          | some s => if s > config.MIN_RUGCHECK_SCORE then [.rugcheckScore] else []
          | none => []
        let mintP : List CheckTag :=
          if config.REQUIRE_MINT_DISABLED then
            if r.summary.mintAuthority.isNone then [.mintAuthority] else []
          else []
        let mintF : List CheckTag :=
          if config.REQUIRE_MINT_DISABLED then
            if r.summary.mintAuthority.isNone then [] else [.mintAuthority]
          else []
        let freezeP : List CheckTag :=
          if config.REQUIRE_FREEZE_DISABLED then
            if r.summary.freezeAuthority.isNone then [.freezeAuthority] else []
          else []
        let freezeF : List CheckTag :=
          if config.REQUIRE_FREEZE_DISABLED then
            if r.summary.freezeAuthority.isNone then [] else [.freezeAuthority]
          else []
        (scoreP ++ mintP ++ freezeP, scoreF ++ mintF ++ freezeF)
    | none => ([], [.rugcheckRequired])

/-- The allow-list section of `check_policy` (step 4): active only when
`ALLOW_MINTS` is non-empty. -/
def allowSection (from_mint to_mint : String) (config : PolicyConfig) :
    List CheckTag × List CheckTag :=
  if config.ALLOW_MINTS.isEmpty then ([], [])
  else
    let fromOk : Bool :=
      config.ALLOW_MINTS.contains from_mint || KNOWN_SAFE_MINTS.contains from_mint
    let toOk : Bool :=
      config.ALLOW_MINTS.contains to_mint || KNOWN_SAFE_MINTS.contains to_mint
    ( (if fromOk then [CheckTag.fromMintAllow] else []) ++
        (if toOk then [CheckTag.toMintAllow] else [])
    , (if fromOk then [] else [CheckTag.fromMintAllow]) ++
        (if toOk then [] else [CheckTag.toMintAllow]) )

/-- `check_policy` from `tools/policy.py`: runs all policy gates in source
order and returns the result.  `allowed` is true exactly when no check
failed. -/
def check_policy (from_mint to_mint : String) (amount_usd : ℚ)
    (slippage_bps : Int) (rugcheck_result : Option RugcheckResult)
    (config : PolicyConfig) : PolicyResult :=
  let slipP : List CheckTag :=
    if slippage_bps > config.MAX_SLIPPAGE_BPS then [] else [.slippage]
  let slipF : List CheckTag :=
    if slippage_bps > config.MAX_SLIPPAGE_BPS then [.slippage] else []
  let sizeP : List CheckTag :=
    if amount_usd > config.MAX_TRADE_USD then [] else [.tradeSize]
  let sizeF : List CheckTag :=
    if amount_usd > config.MAX_TRADE_USD then [.tradeSize] else []
  let fromDenyP : List CheckTag :=
    if config.DENY_MINTS.contains from_mint then [] else [.fromMintDeny]
  let fromDenyF : List CheckTag :=
    if config.DENY_MINTS.contains from_mint then [.fromMintDeny] else []
  let toDenyP : List CheckTag :=
    if config.DENY_MINTS.contains to_mint then [] else [.toMintDeny]
  let toDenyF : List CheckTag :=
    if config.DENY_MINTS.contains to_mint then [.toMintDeny] else []
  let allowPF := allowSection from_mint to_mint config
  let rugPF := rugcheckSection to_mint rugcheck_result config
  let checks_passed :=
    slipP ++ sizeP ++ fromDenyP ++ toDenyP ++ allowPF.1 ++ rugPF.1
  let checks_failed :=
    slipF ++ sizeF ++ fromDenyF ++ toDenyF ++ allowPF.2 ++ rugPF.2
  { allowed := checks_failed.isEmpty
  , checks_passed := checks_passed
  , checks_failed := checks_failed }

/-- `is_known_safe_mint` from `tools/policy.py`. -/
def is_known_safe_mint (mint : String) : Bool :=
  KNOWN_SAFE_MINTS.contains mint

/-! ## Wallet vault (`tools/config.py`)

`load_local_wallet` reads the encrypted `wallet.enc`; decryption with the
machine-bound key either succeeds, or raises `InvalidToken` (key mismatch).
We model the on-disk state abstractly: the encrypted file is absent,
decrypts to a valid wallet dict, or is undecryptable with the current
machine key. -/

/-- Wallet data: the decrypted dict with `private_key` and `address`. -/
structure WalletData where
  private_key : String
  address : String
  deriving DecidableEq, Repr

/-- State of `wallet.enc` relative to the current machine key. -/
inductive EncWalletState where
  /-- `wallet.enc` does not exist. -/
  | absent
  /-- `wallet.enc` exists and decrypts to a valid wallet dict. -/
  | decryptsTo (w : WalletData)
  /-- `wallet.enc` exists but decryption raises `InvalidToken`
  (machine-key mismatch). -/
  | undecryptable
  deriving DecidableEq, Repr

/-- On-disk / environment state seen by the wallet loader.  `walletPlain`
models a legacy plaintext `wallet.json` with both required fields (migration
source); `envKey` models a parseable `SOLANA_PRIVATE_KEY` environment
variable. -/
structure WalletFsState where
  walletEnc : EncWalletState
  walletPlain : Option WalletData := none
  envKey : Option WalletData := none
  deriving DecidableEq, Repr

/-- `_migrate_plaintext_wallet`: returns the plaintext wallet when present
(and re-saves it encrypted, not modelled here). -/
def migrate_plaintext_wallet (fs : WalletFsState) : Option WalletData :=
  fs.walletPlain

/-- `load_local_wallet(raise_on_decrypt_error)`: `.error` models the raised
`ValueError`, `.ok none` the "no wallet" result.  On `InvalidToken` with the
flag unset the function returns `None` immediately, without attempting
plaintext migration. -/
def load_local_wallet (fs : WalletFsState)
    (raise_on_decrypt_error : Bool := false) : Except String (Option WalletData) :=
  match fs.walletEnc with
  | .decryptsTo w => .ok (some w)
  | .undecryptable =>
      if raise_on_decrypt_error then
        .error "Cannot decrypt wallet.enc - machine key mismatch."
      else
        .ok none
  | .absent =>
      match migrate_plaintext_wallet fs with
      | some w => .ok (some w)
      | none => .ok none

/-- How `get_or_create_wallet` obtained its result. -/
inductive WalletSource where
  /-- Returned the parseable `SOLANA_PRIVATE_KEY` environment wallet. -/
  | fromEnv (w : WalletData)
  /-- Returned the wallet loaded from local storage. -/
  | fromLocal (w : WalletData)
  /-- Generated, saved and returned a brand-new wallet (`is_new = True`). -/
  | generatedNew
  deriving DecidableEq, Repr

/-- `get_or_create_wallet`: env var first, then `load_local_wallet()` with
default arguments, else generate a fresh wallet and save it. -/
def get_or_create_wallet (fs : WalletFsState) : WalletSource :=
  match fs.envKey with
  | some w => .fromEnv w
  | none =>
      match load_local_wallet fs with
      | .ok (some w) => .fromLocal w
      | _ => .generatedNew

/-! ## Intent store (`tools/intents.py`) and confirm (`tools/solana_tools.py`)

The `intents` table is modelled as a list of rows; `intent_id` is the primary
key.  Timestamps are abstract integers. -/

/-- A row of the `intents` table (fields irrelevant to the verified claims
are kept as opaque strings). -/
structure IntentRow where
  intent_id : String
  from_mint : String
  to_mint : String
  amount : String
  unsigned_tx : String
  request_id : String
  expires_at : Int
  executed : Bool
  deriving DecidableEq, Repr

/-- The `intents` table. -/
abbrev IntentsDB : Type := List IntentRow

/-- `get_intent(id)`: `cleanup_expired` deletes rows with `expires_at < now`;
the select then requires `intent_id = id AND expires_at > now`.  Net effect:
the row is returned exactly when its id matches and it has not expired. -/
def get_intent (db : IntentsDB) (intent_id : String) (now : Int) :
    Option IntentRow :=
  db.find? (fun r => r.intent_id == intent_id && r.expires_at > now)

/-- `mark_executed(id)`: conditional update
`SET executed = 1 WHERE intent_id = ? AND executed = 0`; returns whether any
row changed, together with the updated table. -/
def mark_executed (db : IntentsDB) (intent_id : String) : Bool × IntentsDB :=
  ( db.any (fun r => r.intent_id == intent_id && !r.executed)
  , db.map (fun r =>
      if r.intent_id == intent_id && !r.executed then
        { r with executed := true }
      else r) )

/-- Result tag of `solana_swap_confirm`. -/
inductive ConfirmResult where
  /-- "Intent not found or expired." -/
  | errNotFound
  /-- "Intent already executed. Each quote can only be used once." -/
  | errAlreadyExecuted
  /-- "No wallet configured." -/
  | errNoWallet
  /-- Reached the aggregator execute call; carries the reported status. -/
  | executed (status : String)
  deriving DecidableEq, Repr

/-- Full outcome of one `solana_swap_confirm` call: the returned result, the
intents table afterwards, and the aggregator execute (network) calls made,
identified by request id. -/
structure ConfirmOutcome where
  result : ConfirmResult
  db : IntentsDB
  executeCalls : List String
  deriving Repr

/-- `solana_swap_confirm(intent_id)`: fetch the intent, refuse a missing or
already-executed intent before any network call, otherwise sign, call the
aggregator execute endpoint, and mark the intent executed.  `hasWallet`
models `get_keypair()` success and `execStatus` the aggregator's reported
status. -/
def solana_swap_confirm (db : IntentsDB) (now : Int) (intent_id : String)
    (hasWallet : Bool) (execStatus : String) : ConfirmOutcome :=
  match get_intent db intent_id now with
  | none => ⟨.errNotFound, db, []⟩
  | some intent =>
      if intent.executed then ⟨.errAlreadyExecuted, db, []⟩
      else if !hasWallet then ⟨.errNoWallet, db, []⟩
      else
        let upd := mark_executed db intent_id
        ⟨.executed execStatus, upd.2, [intent.request_id]⟩

/-- Arguments of one `solana_swap_confirm` call, for reasoning about
sequences of confirm calls. -/
structure ConfirmCall where
  now : Int
  intent_id : String
  hasWallet : Bool
  execStatus : String

/-- The intents table after a sequence of confirm calls. -/
def runConfirms (db : IntentsDB) (calls : List ConfirmCall) : IntentsDB :=
  calls.foldl
    (fun d c => (solana_swap_confirm d c.now c.intent_id c.hasWallet c.execStatus).db)
    db

/-! ## Trade history and PnL (`tools/strategies.py`)

The `trade_history` table is append-only; we model it as a list in insertion
order (timestamps strictly increasing), so `ORDER BY timestamp DESC` is
`List.reverse`. -/

/-- A row of the `trade_history` table. -/
structure TradeRow where
  action : String
  mint : String
  symbol : String
  amount_tokens : ℚ
  amount_usd : ℚ
  price_per_token : ℚ
  deriving DecidableEq, Repr

/-- `get_trade_history(mint, limit)` with a mint filter:
`SELECT ... WHERE mint = ? ORDER BY timestamp DESC LIMIT ?`. -/
def get_trade_history (history : List TradeRow) (mint : String)
    (limit : Nat := 50) : List TradeRow :=
  ((history.filter (fun t => t.mint == mint)).reverse).take limit

/-- The dict returned by `calculate_pnl_for_token` (price-independent
fields). -/
structure PnlResult where
  total_bought_tokens : ℚ
  total_bought_usd : ℚ
  total_sold_tokens : ℚ
  total_sold_usd : ℚ
  current_holdings : ℚ
  holdings_value_usd : ℚ
  avg_buy_price : ℚ
  cost_basis : ℚ
  realized_pnl : ℚ
  unrealized_pnl : ℚ
  total_pnl : ℚ
  trade_count : Nat
  deriving DecidableEq, Repr

/-- Sum of `amount_tokens` over rows with the given `action`. -/
def sumTokens (trades : List TradeRow) (action : String) : ℚ :=
  (trades.filter (fun t => t.action == action)).foldl
    (fun acc t => acc + t.amount_tokens) 0

/-- Sum of `amount_usd` over rows with the given `action`. -/
def sumUsd (trades : List TradeRow) (action : String) : ℚ :=
  (trades.filter (fun t => t.action == action)).foldl
    (fun acc t => acc + t.amount_usd) 0

/-- `calculate_pnl_for_token(mint, current_price)`: aggregates the rows
returned by `get_trade_history(mint=mint)` — which uses the default
`limit = 50` — and derives the PnL figures; `none` models the
"No trade history" error return. -/
def calculate_pnl_for_token (history : List TradeRow) (mint : String)
    (current_price : ℚ) : Option PnlResult :=
  let trades := get_trade_history history mint
  if trades.isEmpty then none
  else
    let total_bought_tokens := sumTokens trades "buy"
    let total_bought_usd := sumUsd trades "buy"
    let total_sold_tokens := sumTokens trades "sell"
    let total_sold_usd := sumUsd trades "sell"
    let holdings := total_bought_tokens - total_sold_tokens
    let holdings_value := holdings * current_price
    let avg_buy_price :=
      if total_bought_tokens > 0 then total_bought_usd / total_bought_tokens
      else 0
    let cost_basis := holdings * avg_buy_price
    let realized_pnl :=
      if total_sold_tokens > 0 then
        total_sold_usd - total_sold_tokens * avg_buy_price
      else 0
    let unrealized_pnl := holdings_value - cost_basis
    some
      { total_bought_tokens := total_bought_tokens
      , total_bought_usd := total_bought_usd
      , total_sold_tokens := total_sold_tokens
      , total_sold_usd := total_sold_usd
      , current_holdings := holdings
      , holdings_value_usd := holdings_value
      , avg_buy_price := avg_buy_price
      , cost_basis := cost_basis
      , realized_pnl := realized_pnl
      , unrealized_pnl := unrealized_pnl
      , total_pnl := realized_pnl + unrealized_pnl
      , trade_count := trades.length }

/-! ## Strategies (`tools/strategies.py`)

The `strategies` table; `name` is `NOT NULL` and all writes go through
`_save_strategy`, which keeps names unique. -/

/-- A trading strategy (`TradingStrategy` dataclass). -/
structure TradingStrategy where
  name : String
  max_trade_usd : ℚ
  auto_execute_under_usd : ℚ
  max_loss_pct : ℚ
  slippage_bps : Int
  require_rugcheck : Bool
  deriving DecidableEq, Repr

/-- A row of the `strategies` table. -/
structure StrategyRow where
  strategy : TradingStrategy
  is_active : Bool
  deriving DecidableEq, Repr

/-- Row written by `_save_strategy` for strategy `s`. -/
def strategyRowOf (s : TradingStrategy) (is_active : Bool) : StrategyRow :=
  { strategy := s, is_active := is_active }

/-- `_save_strategy(strategy, is_active)`: when activating, first
`UPDATE strategies SET is_active = 0` on all rows; then update every row with
the strategy's name, or insert a new row when none exists. -/
def save_strategy (tbl : List StrategyRow) (s : TradingStrategy)
    (is_active : Bool) : List StrategyRow :=
  let tbl1 :=
    if is_active then tbl.map (fun r => { r with is_active := false }) else tbl
  if tbl1.any (fun r => r.strategy.name == s.name) then
    tbl1.map (fun r =>
      if r.strategy.name == s.name then strategyRowOf s is_active else r)
  else
    tbl1 ++ [strategyRowOf s is_active]

/-- `set_strategy`'s only write to the `strategies` table: after building the
new strategy (preset, overrides, clamp of `auto_execute_under_usd`), it calls
`_save_strategy(new_strategy, is_active=True)`. -/
def set_strategy_table (tbl : List StrategyRow) (s : TradingStrategy) :
    List StrategyRow :=
  save_strategy tbl s true

/-! ## Auto-sell targets (`tools/targets.py`, `daemon.py`) -/

/-- `TargetStatus` enum. -/
inductive TargetStatus where
  | pending
  | triggered
  | executed
  | cancelled
  deriving DecidableEq, Repr

/-- A row of the `targets` table (timestamp columns omitted). -/
structure TargetRow where
  id : Int
  mint : String
  target_type : String
  target_value : ℚ
  sell_amount : String
  status : TargetStatus
  entry_price : Option ℚ
  entry_mcap : Option ℚ
  peak_value : Option ℚ
  trigger_price : Option ℚ
  execution_signature : Option String
  deriving DecidableEq, Repr

/-- The row inserted by `add_target`: status `'pending'`, and for a
`trailing_stop` target `peak_value` initialized to `entry_price`. -/
def add_target_row (id : Int) (mint : String) (target_type : String)
    (target_value : ℚ) (sell_amount : String) (entry_price : Option ℚ)
    (entry_mcap : Option ℚ) : TargetRow :=
  { id := id
  , mint := mint
  , target_type := target_type
  , target_value := target_value
  , sell_amount := sell_amount
  , status := .pending
  , entry_price := entry_price
  , entry_mcap := entry_mcap
  , peak_value := if target_type == "trailing_stop" then entry_price else none
  , trigger_price := none
  , execution_signature := none }

/-- `mark_target_triggered(target_id, trigger_price)`: unconditional
`UPDATE targets SET status = 'triggered', trigger_price = ? WHERE id = ?`. -/
def mark_target_triggered (db : List TargetRow) (target_id : Int)
    (trigger_price : ℚ) : List TargetRow :=
  db.map (fun t =>
    if t.id == target_id then
      { t with status := .triggered, trigger_price := some trigger_price }
    else t)

/-- `mark_target_executed(target_id, signature)`: unconditional
`UPDATE targets SET status = 'executed', execution_signature = ? WHERE id = ?`. -/
def mark_target_executed (db : List TargetRow) (target_id : Int)
    (signature : Option String) : List TargetRow :=
  db.map (fun t =>
    if t.id == target_id then
      { t with status := .executed, execution_signature := signature }
    else t)

/-- `update_trailing_peak(target_id, current_price)`:
`SET peak_value = MAX(COALESCE(peak_value, 0), ?) WHERE id = ? AND
target_type = 'trailing_stop'`. -/
def update_trailing_peak (db : List TargetRow) (target_id : Int)
    (current_price : ℚ) : List TargetRow :=
  db.map (fun t =>
    if t.id == target_id && t.target_type == "trailing_stop" then
      { t with peak_value := some (max (t.peak_value.getD 0) current_price) }
    else t)

/-- `check_target(target, current_price, current_mcap)`: trigger-condition
predicate, evaluated only on pending targets. -/
def check_target (t : TargetRow) (current_price : ℚ)
    (current_mcap : Option ℚ) : Bool :=
  if t.status != .pending then false
  else if t.target_type == "mcap" then
    match current_mcap with
    | some m => m ≥ t.target_value
    | none => false
  else if t.target_type == "price" then
    current_price ≥ t.target_value
  else if t.target_type == "pct_gain" then
    match t.entry_price with
    | some e =>
        if e ≤ 0 then false
        else ((current_price - e) / e) * 100 ≥ t.target_value
    | none => false
  else if t.target_type == "trailing_stop" then
    match t.peak_value with
    | some p =>
        if p ≤ 0 then false
        else ((p - current_price) / p) * 100 ≥ t.target_value
    | none => false
  else false

/-- One daemon `_check_cycle` step on a single target with an observed price:
for a trailing-stop target the peak is updated first and the refreshed row is
used; the trigger condition is evaluated afterwards.  Returns the refreshed
row and whether the target fired. -/
def daemon_tick_target (t : TargetRow) (current_price : ℚ)
    (current_mcap : Option ℚ) : TargetRow × Bool :=
  let t1 :=
    if t.target_type == "trailing_stop" then
      { t with peak_value := some (max (t.peak_value.getD 0) current_price) }
    else t
  (t1, check_target t1 current_price current_mcap)

/-- The state of a target after the daemon has observed a sequence of
prices, each observation applying `daemon_tick_target`. -/
def target_after_observations (t : TargetRow) (prices : List ℚ) : TargetRow :=
  prices.foldl (fun s p => (daemon_tick_target s p none).1) t

/-- `_validate_sell_amount` accepts `'all'`, `'N%'`, `'usd:X'`, or a plain
number; the numeric payloads are modelled exactly, the string shapes by this
abstract syntax. -/
inductive SellAmount where
  /-- The literal string `'all'`. -/
  | all
  /-- `'N%'` with numeric payload `q`. -/
  | pct (q : ℚ)
  /-- `'usd:X'` with numeric payload `x`. -/
  | usd (x : ℚ)
  /-- A plain number, treated as a percentage. -/
  | plain (q : ℚ)
  deriving DecidableEq, Repr

/-- `_validate_sell_amount`: `'all'` passes; percentages (suffixed or plain)
must satisfy `0 < pct ≤ 100`; `'usd:X'` must satisfy `X > 0`. -/
def validate_sell_amount (s : SellAmount) : Bool :=
  match s with
  | .all => true
  | .pct q => 0 < q && q ≤ 100
  | .usd x => 0 < x
  | .plain q => 0 < q && q ≤ 100

/-- `parse_sell_amount(sell_amount, holdings_value_usd, token_amount)`:
returns the token amount to sell.  The `'usd:'` branch derives a price per
token, guarding the division when `token_amount` is 0. -/
def parse_sell_amount (s : SellAmount) (holdings_value_usd : ℚ)
    (token_amount : ℚ) : ℚ :=
  match s with
  | .all => token_amount
  | .pct q =>
      if q == 100 then token_amount
      else token_amount * (q / 100)
  | .usd x =>
      let price_per_token :=
        if token_amount > 0 then holdings_value_usd / token_amount else 0
      if price_per_token > 0 then min (x / price_per_token) token_amount
      else 0
  | .plain q => token_amount * (q / 100)

/-! ## Policy engine lemmas -/

/-- Every tag produced by the rugcheck section is one of the four rugcheck
tags. -/
lemma rugcheckSection_tags (tm : String) (rug : Option RugcheckResult)
    (cfg : PolicyConfig) :
    ∀ t, (t ∈ (rugcheckSection tm rug cfg).1 ∨ t ∈ (rugcheckSection tm rug cfg).2) →
      t = CheckTag.rugcheckScore ∨ t = CheckTag.mintAuthority ∨
      t = CheckTag.freezeAuthority ∨ t = CheckTag.rugcheckRequired := by
  intro t ht
  unfold rugcheckSection at ht
  rcases ht with ht | ht <;>
  · split at ht
    · simp at ht
    · cases rug with
      | none => simp_all
      | some r =>
          rcases hs : r.score with _ | s <;>
            simp only [hs, List.mem_append] at ht <;>
            rcases ht with (ht | ht) | ht <;>
            (try split_ifs at ht) <;> simp_all

/-- Every tag produced by the allow-list section is one of the two
allow-list tags. -/
lemma allowSection_tags (fm tm : String) (cfg : PolicyConfig) :
    ∀ t, (t ∈ (allowSection fm tm cfg).1 ∨ t ∈ (allowSection fm tm cfg).2) →
      t = CheckTag.fromMintAllow ∨ t = CheckTag.toMintAllow := by
  intro t ht
  unfold allowSection at ht
  rcases ht with ht | ht <;>
  · split at ht
    · simp at ht
    · simp only [List.mem_append] at ht
      rcases ht with ht | ht <;> (try split_ifs at ht) <;> simp_all

/-- The slippage tag never comes from the rugcheck section. -/
lemma slippage_notin_rug (tm : String) (rug : Option RugcheckResult)
    (cfg : PolicyConfig) :
    CheckTag.slippage ∉ (rugcheckSection tm rug cfg).1 ∧
    CheckTag.slippage ∉ (rugcheckSection tm rug cfg).2 := by
  constructor <;> intro hmem <;>
    rcases rugcheckSection_tags tm rug cfg _ (by tauto) with h | h | h | h <;>
    exact absurd h (by simp)

/-- The slippage tag never comes from the allow-list section. -/
lemma slippage_notin_allow (fm tm : String) (cfg : PolicyConfig) :
    CheckTag.slippage ∉ (allowSection fm tm cfg).1 ∧
    CheckTag.slippage ∉ (allowSection fm tm cfg).2 := by
  constructor <;> intro hmem <;>
    rcases allowSection_tags fm tm cfg _ (by tauto) with h | h <;>
    exact absurd h (by simp)

/-- The trade-size tag never comes from the rugcheck section. -/
lemma tradeSize_notin_rug (tm : String) (rug : Option RugcheckResult)
    (cfg : PolicyConfig) :
    CheckTag.tradeSize ∉ (rugcheckSection tm rug cfg).1 ∧
    CheckTag.tradeSize ∉ (rugcheckSection tm rug cfg).2 := by
  constructor <;> intro hmem <;>
    rcases rugcheckSection_tags tm rug cfg _ (by tauto) with h | h | h | h <;>
    exact absurd h (by simp)

/-- The trade-size tag never comes from the allow-list section. -/
lemma tradeSize_notin_allow (fm tm : String) (cfg : PolicyConfig) :
    CheckTag.tradeSize ∉ (allowSection fm tm cfg).1 ∧
    CheckTag.tradeSize ∉ (allowSection fm tm cfg).2 := by
  constructor <;> intro hmem <;>
    rcases allowSection_tags fm tm cfg _ (by tauto) with h | h <;>
    exact absurd h (by simp)

/-! ## Theorems for the claims -/

/-- Claim C8: `check_policy` treats both caps as inclusive.  A call with
`slippage_bps` exactly `config.MAX_SLIPPAGE_BPS` records the slippage check
as passed (and not failed) while one above fails it, and a call with
`amount_usd` exactly `config.MAX_TRADE_USD` records the trade-size check as
passed (and not failed) while one dollar above fails it. -/
theorem c8_policy_caps_inclusive (cfg : PolicyConfig) (fm tm : String)
    (usd : ℚ) (slip : Int) (rug : Option RugcheckResult) :
    (CheckTag.slippage ∈
        (check_policy fm tm usd cfg.MAX_SLIPPAGE_BPS rug cfg).checks_passed
      ∧ CheckTag.slippage ∉
          (check_policy fm tm usd cfg.MAX_SLIPPAGE_BPS rug cfg).checks_failed)
    ∧ CheckTag.slippage ∈
        (check_policy fm tm usd (cfg.MAX_SLIPPAGE_BPS + 1) rug cfg).checks_failed
    ∧ (CheckTag.tradeSize ∈
        (check_policy fm tm cfg.MAX_TRADE_USD slip rug cfg).checks_passed
      ∧ CheckTag.tradeSize ∉
          (check_policy fm tm cfg.MAX_TRADE_USD slip rug cfg).checks_failed)
    ∧ CheckTag.tradeSize ∈
        (check_policy fm tm (cfg.MAX_TRADE_USD + 1) slip rug cfg).checks_failed := by
  obtain ⟨hsr1, hsr2⟩ := slippage_notin_rug tm rug cfg
  obtain ⟨hsa1, hsa2⟩ := slippage_notin_allow fm tm cfg
  obtain ⟨htr1, htr2⟩ := tradeSize_notin_rug tm rug cfg
  obtain ⟨hta1, hta2⟩ := tradeSize_notin_allow fm tm cfg
  refine ⟨⟨?_, ?_⟩, ?_, ⟨?_, ?_⟩, ?_⟩ <;>
    simp [check_policy, lt_irrefl, lt_add_one, hsr2, hsa2, htr2, hta2]

/-- `check_policy` allows the trade exactly when no check failed. -/
lemma check_policy_allowed_iff (fm tm : String) (usd : ℚ) (slip : Int)
    (rug : Option RugcheckResult) (cfg : PolicyConfig) :
    (check_policy fm tm usd slip rug cfg).allowed = true ↔
    (check_policy fm tm usd slip rug cfg).checks_failed = [] := by
  simp [check_policy, List.isEmpty_iff]

/-- For a to-mint outside `KNOWN_SAFE_MINTS`, an empty failed list from the
rugcheck section forces a provided rugcheck whose score, when present, is
within the configured bound. -/
lemma rugcheckSection_failed_nil (tm : String) (rug : Option RugcheckResult)
    (cfg : PolicyConfig) (hsafe : KNOWN_SAFE_MINTS.contains tm = false)
    (hnil : (rugcheckSection tm rug cfg).2 = []) :
    ∃ r, rug = some r ∧
      ∀ s, r.score = some s → s ≤ cfg.MIN_RUGCHECK_SCORE := by
  unfold rugcheckSection at hnil
  rw [hsafe] at hnil
  simp only [Bool.false_eq_true, if_false] at hnil
  cases rug with
  | none => simp at hnil
  | some r =>
      refine ⟨r, rfl, ?_⟩
      intro s hs
      simp only [hs, List.append_eq_nil] at hnil
      by_contra hgt
      push_neg at hgt
      rw [if_pos hgt] at hnil
      simp at hnil

/-- A mint string used as a concrete unknown (non-safe-listed) to-mint. -/
def unknownMint : String := "BagNewTokenMint1111111111111111111111111111"

/-- A rugcheck report carrying no `score` field (the API's `dict.get("score")`
returns `None`) and no active authorities. -/
def scorelessRug : RugcheckResult := { score := none, summary := {} }

/-- Claim C4, counterexample: with the default policy config and a to-mint
outside `KNOWN_SAFE_MINTS`, a rugcheck result whose `score` is `None` passes
every gate, so `check_policy` returns `allowed = true` even though no score
bound was checked — contradicting the claim that `allowed = true` requires
`score ≤ MIN_RUGCHECK_SCORE`. -/
theorem c4_counterexample :
    KNOWN_SAFE_MINTS.contains unknownMint = false
    ∧ scorelessRug.score = none
    ∧ (check_policy "So11111111111111111111111111111111111111112" unknownMint
        10 50 (some scorelessRug) {}).allowed = true := by
  refine ⟨by decide, rfl, by decide⟩

/-- Claim C4, amended: for every `to_mint` not in `KNOWN_SAFE_MINTS`,
`check_policy` returns `allowed = true` only if a rugcheck result was
provided and its score, *when present*, satisfies
`score ≤ config.MIN_RUGCHECK_SCORE` (a report without a score skips the
score gate); when the rugcheck result is absent the check fails with the
rugcheck-required tag and the trade is not allowed. -/
theorem c4_rugcheck_required_amended (fm tm : String) (usd : ℚ) (slip : Int)
    (rug : Option RugcheckResult) (cfg : PolicyConfig)
    (hsafe : KNOWN_SAFE_MINTS.contains tm = false) :
    ((check_policy fm tm usd slip rug cfg).allowed = true →
      ∃ r, rug = some r ∧
        ∀ s, r.score = some s → s ≤ cfg.MIN_RUGCHECK_SCORE)
    ∧ (rug = none →
        CheckTag.rugcheckRequired ∈
          (check_policy fm tm usd slip rug cfg).checks_failed
        ∧ (check_policy fm tm usd slip rug cfg).allowed = false) := by
  have hsafe' : tm ∉ KNOWN_SAFE_MINTS := by simpa using hsafe
  constructor
  · intro hallow
    rw [check_policy_allowed_iff] at hallow
    apply rugcheckSection_failed_nil tm rug cfg hsafe
    simp only [check_policy, List.append_eq_nil] at hallow
    tauto
  · rintro rfl
    constructor
    · simp [check_policy, rugcheckSection, hsafe']
    · simp [check_policy, rugcheckSection, hsafe']

/-- Witness for the amended Claim C4 at a concrete non-safe mint. -/
theorem c4_rugcheck_required_amended_witness :
    ((check_policy "a" unknownMint 1 1 none {}).allowed = true →
      ∃ r, (none : Option RugcheckResult) = some r ∧
        ∀ s, r.score = some s → s ≤ PolicyConfig.MIN_RUGCHECK_SCORE {})
    ∧ ((none : Option RugcheckResult) = none →
        CheckTag.rugcheckRequired ∈
          (check_policy "a" unknownMint 1 1 none {}).checks_failed
        ∧ (check_policy "a" unknownMint 1 1 none {}).allowed = false) :=
  c4_rugcheck_required_amended "a" unknownMint 1 1 none {} (by decide)

/-- Claim C1, counterexample: with `wallet.enc` present but undecryptable
with the current machine key (and no plaintext wallet or env key),
`load_local_wallet` called with default arguments returns exactly the same
result as when no wallet file exists at all, and `get_or_create_wallet`
silently generates and saves a fresh wallet in that state. -/
theorem c1_counterexample :
    load_local_wallet { walletEnc := .undecryptable } =
      load_local_wallet { walletEnc := .absent }
    ∧ load_local_wallet { walletEnc := .undecryptable } = .ok none
    ∧ get_or_create_wallet { walletEnc := .undecryptable } = .generatedNew :=
  ⟨rfl, rfl, rfl⟩

/-- Claim C1, amended: the decryption failure is surfaced only on request.
`load_local_wallet` with `raise_on_decrypt_error = true` raises on an
undecryptable `wallet.enc` (distinguishable from the no-wallet state, which
yields `none` without an error); with the default
`raise_on_decrypt_error = false` — as used by `get_keypair` and
`get_or_create_wallet` — an undecryptable `wallet.enc` yields `none`, the
same as an absent wallet, and `get_or_create_wallet` (without an env key)
then generates and saves a fresh wallet. -/
theorem c1_decrypt_failure_amended (p e : Option WalletData) :
    (∃ msg,
        load_local_wallet { walletEnc := .undecryptable, walletPlain := p, envKey := e } true
          = .error msg)
    ∧ load_local_wallet { walletEnc := .absent, walletPlain := none, envKey := e } true
        = .ok none
    ∧ load_local_wallet { walletEnc := .undecryptable, walletPlain := p, envKey := e } false
        = .ok none
    ∧ load_local_wallet { walletEnc := .absent, walletPlain := none, envKey := e } false
        = .ok none
    ∧ get_or_create_wallet { walletEnc := .undecryptable, walletPlain := p, envKey := none }
        = .generatedNew :=
  ⟨⟨"Cannot decrypt wallet.enc - machine key mismatch.", rfl⟩, rfl, rfl, rfl, rfl⟩

/-! ## Intent store lemmas -/

/-- A second `mark_executed` with the same id never reports a change: the
first call has set `executed = 1` on every matching row. -/
lemma mark_executed_twice_false (db : IntentsDB) (intent_id : String) :
    (mark_executed (mark_executed db intent_id).2 intent_id).1 = false := by
  simp only [mark_executed, List.any_map]
  rw [List.any_eq_false]
  intro r _
  simp only [Function.comp]
  split
  · simp
  · rename_i hcond
    simpa using hcond

/-- `mark_executed` rewrites rows in place: the row at each position keeps
its id, and an executed row stays executed. -/
lemma mark_executed_getElem (db : IntentsDB) (intent_id : String) (i : Nat)
    (r : IntentRow) (h : db[i]? = some r) :
    ∃ r', ((mark_executed db intent_id).2)[i]? = some r'
      ∧ r'.intent_id = r.intent_id
      ∧ (r.executed = true → r'.executed = true) := by
  simp only [mark_executed, List.getElem?_map, h, Option.map_some]
  refine ⟨_, rfl, ?_, ?_⟩
  · beta_reduce
    split <;> rfl
  · intro hx
    beta_reduce
    split <;> simp [hx]

/-- `mark_executed` preserves the number of rows. -/
lemma mark_executed_length (db : IntentsDB) (intent_id : String) :
    ((mark_executed db intent_id).2).length = db.length := by
  simp [mark_executed]

/-- Claim C9: for every stored intent row whose executed flag is 0, calling
`mark_executed` twice in succession with that id returns true on the first
call and false on the second; for an id matching no stored row it returns
false. -/
theorem c9_mark_executed_true_then_false (db : IntentsDB) (id : String) :
    ((∃ r ∈ db, r.intent_id = id ∧ r.executed = false) →
      (mark_executed db id).1 = true
      ∧ (mark_executed (mark_executed db id).2 id).1 = false)
    ∧ ((∀ r ∈ db, r.intent_id ≠ id) → (mark_executed db id).1 = false) := by
  constructor
  · rintro ⟨r, hr, hid, hex⟩
    refine ⟨?_, mark_executed_twice_false db id⟩
    simp only [mark_executed]
    rw [List.any_eq_true]
    exact ⟨r, hr, by simp [hid, hex]⟩
  · intro hnone
    simp only [mark_executed]
    rw [List.any_eq_false]
    intro r hr
    simp [hnone r hr]

/-- A concrete unexecuted intent row for witnesses. -/
def sampleIntent : IntentRow :=
  { intent_id := "11111111-2222-3333-4444-555555555555"
  , from_mint := "So11111111111111111111111111111111111111112"
  , to_mint := "EPjFWdd5AufqSSqeM2qN1xzybapC8G4wEGGkZwyTDt1v"
  , amount := "1.5"
  , unsigned_tx := "AQID"
  , request_id := "req-1"
  , expires_at := 120
  , executed := false }

/-- Witness for Claim C9 on a one-row intents table. -/
theorem c9_mark_executed_witness :
    ((mark_executed [sampleIntent] sampleIntent.intent_id).1 = true
      ∧ (mark_executed (mark_executed [sampleIntent] sampleIntent.intent_id).2
          sampleIntent.intent_id).1 = false)
    ∧ (mark_executed [] sampleIntent.intent_id).1 = false :=
  ⟨(c9_mark_executed_true_then_false [sampleIntent] sampleIntent.intent_id).1
      ⟨sampleIntent, by simp, rfl, rfl⟩
  , (c9_mark_executed_true_then_false [] sampleIntent.intent_id).2
      (by intro r hr; simp at hr)⟩

/-- A confirm call either leaves the intents table unchanged (error paths)
or applies the conditional `mark_executed` update. -/
lemma confirm_db_cases (db : IntentsDB) (now : Int) (id : String)
    (w : Bool) (st : String) :
    (solana_swap_confirm db now id w st).db = db ∨
    (solana_swap_confirm db now id w st).db = (mark_executed db id).2 := by
  unfold solana_swap_confirm
  cases h : get_intent db id now with
  | none => left; rfl
  | some intent =>
      by_cases hex : intent.executed = true
      · left; simp [hex]
      · by_cases hw : w = true
        · right; simp [hex, hw]
        · left; simp [hex, hw]

/-- Row-level effect of one confirm call: length is preserved, ids are
preserved positionally, and an executed flag never goes back to false. -/
lemma confirm_step_monotone (db : IntentsDB) (now : Int) (id : String)
    (w : Bool) (st : String) (i : Nat) (r : IntentRow)
    (h : db[i]? = some r) :
    (solana_swap_confirm db now id w st).db.length = db.length ∧
    ∃ r', ((solana_swap_confirm db now id w st).db)[i]? = some r'
      ∧ r'.intent_id = r.intent_id
      ∧ (r.executed = true → r'.executed = true) := by
  rcases confirm_db_cases db now id w st with hdb | hdb <;> rw [hdb]
  · exact ⟨rfl, r, h, rfl, fun hx => hx⟩
  · exact ⟨mark_executed_length db id, mark_executed_getElem db id i r h⟩

/-- Monotonicity of the executed flag over any sequence of confirm calls. -/
lemma runConfirms_monotone (calls : List ConfirmCall) (db : IntentsDB)
    (i : Nat) (r : IntentRow) (h : db[i]? = some r) :
    (runConfirms db calls).length = db.length ∧
    ∃ r', (runConfirms db calls)[i]? = some r'
      ∧ r'.intent_id = r.intent_id
      ∧ (r.executed = true → r'.executed = true) := by
  induction calls generalizing db r with
  | nil => exact ⟨rfl, r, h, rfl, fun hx => hx⟩
  | cons c cs ih =>
      obtain ⟨hlen, r1, hr1, hid1, hex1⟩ :=
        confirm_step_monotone db c.now c.intent_id c.hasWallet c.execStatus i r h
      obtain ⟨hlen2, r2, hr2, hid2, hex2⟩ := ih _ r1 hr1
      refine ⟨by rw [runConfirms] at hlen2 ⊢; simpa [List.foldl_cons] using hlen2.trans hlen,
        r2, ?_, hid2.trans hid1, fun hx => hex2 (hex1 hx)⟩
      simpa [runConfirms, List.foldl_cons] using hr2

/-- Claim C2: a confirm on an intent whose executed flag is already set
returns the intent-reused error, performs no aggregator execute call, and
leaves the table unchanged; and across any sequence of confirm calls the
executed flag of a stored intent never reverts, so it flips from false to
true at most once. -/
theorem c2_confirm_replay_forbidden :
    (∀ (db : IntentsDB) (now : Int) (id : String) (w : Bool) (st : String)
        (r : IntentRow),
        get_intent db id now = some r → r.executed = true →
        (solana_swap_confirm db now id w st).result = .errAlreadyExecuted
        ∧ (solana_swap_confirm db now id w st).executeCalls = []
        ∧ (solana_swap_confirm db now id w st).db = db)
    ∧ (∀ (db : IntentsDB) (calls : List ConfirmCall) (i : Nat) (r : IntentRow),
        db[i]? = some r → r.executed = true →
        ∃ r', (runConfirms db calls)[i]? = some r'
          ∧ r'.intent_id = r.intent_id ∧ r'.executed = true) := by
  constructor
  · intro db now id w st r hget hex
    unfold solana_swap_confirm
    rw [hget]
    simp [hex]
  · intro db calls i r h hex
    obtain ⟨-, r', hr', hid, hmono⟩ := runConfirms_monotone calls db i r h
    exact ⟨r', hr', hid, hmono hex⟩

/-- The executed variant of the sample intent row. -/
def sampleIntentDone : IntentRow := { sampleIntent with executed := true }

/-- Witness for Claim C2 on a one-row table holding an already-executed
intent. -/
theorem c2_confirm_replay_witness :
    ((solana_swap_confirm [sampleIntentDone] 0 sampleIntentDone.intent_id
        true "Success").result = .errAlreadyExecuted
      ∧ (solana_swap_confirm [sampleIntentDone] 0 sampleIntentDone.intent_id
          true "Success").executeCalls = []
      ∧ (solana_swap_confirm [sampleIntentDone] 0 sampleIntentDone.intent_id
          true "Success").db = [sampleIntentDone])
    ∧ ∃ r', (runConfirms [sampleIntentDone]
          [⟨0, sampleIntentDone.intent_id, true, "Success"⟩])[0]? = some r'
        ∧ r'.intent_id = sampleIntentDone.intent_id ∧ r'.executed = true :=
  ⟨c2_confirm_replay_forbidden.1 [sampleIntentDone] 0
      sampleIntentDone.intent_id true "Success" sampleIntentDone
      (by decide) rfl
  , c2_confirm_replay_forbidden.2 [sampleIntentDone]
      [⟨0, sampleIntentDone.intent_id, true, "Success"⟩] 0 sampleIntentDone
      rfl rfl⟩

/-- A concrete buy trade: 1 token for 1 USD on mint `"M"`. -/
def c3_buyRow : TradeRow :=
  { action := "buy", mint := "M", symbol := "MEME"
  , amount_tokens := 1, amount_usd := 1, price_per_token := 1 }

/-- A trade history of 51 identical recorded buys on mint `"M"`. -/
def c3_history : List TradeRow := List.replicate 51 c3_buyRow

/-- Summing `amount_tokens` over `n` copies of the unit buy row adds `n`. -/
lemma c3_foldl_tokens_replicate (n : Nat) (q : ℚ) :
    (List.replicate n c3_buyRow).foldl (fun acc t => acc + t.amount_tokens) q
      = q + n := by
  induction n generalizing q with
  | zero => simp
  | succ k ih =>
      rw [List.replicate_succ, List.foldl_cons, ih]
      show q + c3_buyRow.amount_tokens + (k : ℚ) = q + (k + 1 : ℕ)
      have h1 : c3_buyRow.amount_tokens = 1 := rfl
      rw [h1]
      push_cast
      ring

/-- `sumTokens` over `n` copies of the unit buy row is `n`. -/
lemma c3_sumTokens_replicate (n : Nat) :
    sumTokens (List.replicate n c3_buyRow) "buy" = n := by
  unfold sumTokens
  rw [List.filter_replicate]
  rw [if_pos (by decide)]
  simpa using c3_foldl_tokens_replicate n 0

/-- `get_trade_history` truncates the 51-buy history to its 50 most recent
rows. -/
lemma c3_trades_eq : get_trade_history c3_history "M"
    = List.replicate 50 c3_buyRow := by
  unfold get_trade_history c3_history
  rw [List.filter_replicate]
  rw [if_pos (by decide)]
  rw [List.reverse_replicate, List.take_replicate]
  norm_num

/-- Claim C3: on a history of 51 recorded buys of 1 token for 1 USD each,
`calculate_pnl_for_token` reports `total_bought_tokens = 50` over 50 rows,
because it aggregates only the rows returned by `get_trade_history` with its
default `limit = 50` — while the sum over every recorded buy row for the
mint is 51.  The code truncates the history; the claim (and the
specification's "aggregate all trades for a mint") says it must not. -/
theorem c3_pnl_truncation_bug :
    ((calculate_pnl_for_token c3_history "M" 2).map
        (fun p => p.total_bought_tokens)) = some 50
    ∧ ((calculate_pnl_for_token c3_history "M" 2).map
        (fun p => p.trade_count)) = some 50
    ∧ sumTokens (c3_history.filter (fun t => t.mint == "M")) "buy" = 51
    ∧ (c3_history.filter (fun t => t.mint == "M")).length = 51
    ∧ (50 : ℚ) ≠ 51 := by
  have hfil : c3_history.filter (fun t => t.mint == "M") = c3_history := by
    unfold c3_history
    rw [List.filter_replicate, if_pos (by decide)]
  refine ⟨?_, ?_, ?_, ?_, by norm_num⟩
  · unfold calculate_pnl_for_token
    rw [c3_trades_eq]
    simpa using c3_sumTokens_replicate 50
  · unfold calculate_pnl_for_token
    rw [c3_trades_eq]
    simp
  · rw [hfil]
    unfold c3_history
    exact_mod_cast c3_sumTokens_replicate 51
  · rw [hfil]
    simp [c3_history]

/-- A concrete sell target in the `cancelled` state. -/
def c5_cancelledTarget : TargetRow :=
  { id := 7, mint := "M", target_type := "price", target_value := 5
  , sell_amount := "all", status := .cancelled
  , entry_price := some 1, entry_mcap := none, peak_value := none
  , trigger_price := none, execution_signature := none }

/-- Claim C5, counterexample: `mark_target_triggered` and
`mark_target_executed` update by id only, with no `status = 'pending'`
condition: applied to a target whose status is `cancelled`, they move it to
`triggered` (resp. `executed`) instead of being no-ops. -/
theorem c5_counterexample :
    c5_cancelledTarget.status = .cancelled
    ∧ (mark_target_triggered [c5_cancelledTarget] 7 6).map
        (fun t => t.status) = [.triggered]
    ∧ (mark_target_executed [c5_cancelledTarget] 7 (some "sig")).map
        (fun t => t.status) = [.executed] := by
  refine ⟨rfl, by decide, by decide⟩

/-- Claim C5, amended: the daemon-tick status updates are unconditional on
the target id.  For every target row whose status is `cancelled` (cancelled
by the user before the tick's update runs), `mark_target_triggered` moves it
to `triggered` and `mark_target_executed` moves it to `executed`: the tick's
update is not conditional on `status = 'pending'` and does transition the
target out of the cancelled state. -/
theorem c5_tick_overwrites_cancelled_amended (db : List TargetRow)
    (id : Int) (price : ℚ) (sig : Option String) (t : TargetRow)
    (ht : t ∈ db) (hid : t.id = id) (hcanc : t.status = .cancelled) :
    { t with status := .triggered, trigger_price := some price }
        ∈ mark_target_triggered db id price
    ∧ { t with status := .executed, execution_signature := sig }
        ∈ mark_target_executed db id sig := by
  constructor
  · have := List.mem_map_of_mem
      (fun t : TargetRow =>
        if t.id == id then
          { t with status := .triggered, trigger_price := some price }
        else t) ht
    simpa [mark_target_triggered, hid] using this
  · have := List.mem_map_of_mem
      (fun t : TargetRow =>
        if t.id == id then
          { t with status := .executed, execution_signature := sig }
        else t) ht
    simpa [mark_target_executed, hid] using this

/-- Witness for the amended Claim C5 on a one-row targets table. -/
theorem c5_tick_overwrites_cancelled_witness :
    { c5_cancelledTarget with
        status := TargetStatus.triggered, trigger_price := some 6 }
      ∈ mark_target_triggered [c5_cancelledTarget] 7 6
    ∧ { c5_cancelledTarget with
        status := TargetStatus.executed, execution_signature := some "sig" }
      ∈ mark_target_executed [c5_cancelledTarget] 7 (some "sig") :=
  c5_tick_overwrites_cancelled_amended [c5_cancelledTarget] 7 6 (some "sig")
    c5_cancelledTarget (by simp) rfl rfl

/-- Folding daemon ticks over a trailing-stop target with a defined peak
keeps the peak defined, never decreases it, and keeps it above every
observed price. -/
lemma trailing_peak_fold (prices : List ℚ) (t : TargetRow) (w : ℚ)
    (htype : t.target_type = "trailing_stop") (hpeak : t.peak_value = some w) :
    ∃ v, (target_after_observations t prices).peak_value = some v
      ∧ w ≤ v ∧ ∀ p ∈ prices, p ≤ v := by
  induction prices generalizing t w with
  | nil =>
      refine ⟨w, ?_, le_refl w, by simp⟩
      simpa [target_after_observations] using hpeak
  | cons p ps ih =>
      have hstep : (daemon_tick_target t p none).1 =
          { t with peak_value := some (max w p) } := by
        simp [daemon_tick_target, htype, hpeak]
      have hfold : target_after_observations t (p :: ps) =
          target_after_observations { t with peak_value := some (max w p) } ps := by
        simp [target_after_observations, List.foldl_cons, hstep]
      obtain ⟨v, hv, hwv, hall⟩ :=
        ih { t with peak_value := some (max w p) } (max w p) htype rfl
      rw [hfold]
      refine ⟨v, hv, le_trans (le_max_left w p) hwv, ?_⟩
      intro q hq
      rcases List.mem_cons.mp hq with rfl | hq
      · exact le_trans (le_max_right w q) hwv
      · exact hall q hq

/-- Claim C7: for every trailing-stop target created with a recorded entry
price, after any sequence of daemon price observations (each tick applying
the peak update of `daemon_tick_target` before its trigger check) the
target's `peak_value` is defined and at least `max(entry_price, every
observed price so far)`. -/
theorem c7_trailing_peak_invariant (id : Int) (mint : String) (tv : ℚ)
    (sell : String) (e : ℚ) (mcapE : Option ℚ) (prices : List ℚ) :
    ∃ v, (target_after_observations
        (add_target_row id mint "trailing_stop" tv sell (some e) mcapE)
        prices).peak_value = some v
      ∧ e ≤ v ∧ ∀ p ∈ prices, p ≤ v := by
  apply trailing_peak_fold prices _ e rfl
  simp [add_target_row]

/-- Claim C10: for every sell-amount accepted by `_validate_sell_amount`
and every non-negative holdings (`token_amount`, `holdings_value_usd`),
`parse_sell_amount` returns an amount between 0 and the current token
balance, so an auto-sell never sells more than the holdings (the `usd:`
branch guards the division when `token_amount` is 0). -/
theorem c10_parse_sell_amount_bounded (s : SellAmount) (hv ta : ℚ)
    (hval : validate_sell_amount s = true) (hta : 0 ≤ ta) (hhv : 0 ≤ hv) :
    0 ≤ parse_sell_amount s hv ta ∧ parse_sell_amount s hv ta ≤ ta := by
  cases s with
  | all => exact ⟨hta, le_refl ta⟩
  | pct q =>
      simp only [validate_sell_amount, Bool.and_eq_true, decide_eq_true_eq] at hval
      obtain ⟨h0, h100⟩ := hval
      by_cases hq : q = 100
      · simp only [parse_sell_amount, hq, beq_self_eq_true, if_true]
        exact ⟨hta, le_refl ta⟩
      · simp only [parse_sell_amount, beq_iff_eq, hq, if_false]
        constructor
        · exact mul_nonneg hta (div_nonneg (le_of_lt h0) (by norm_num))
        · apply mul_le_of_le_one_right hta
          rw [div_le_one (by norm_num)]
          exact h100
  | usd x =>
      simp only [validate_sell_amount, decide_eq_true_eq] at hval
      simp only [parse_sell_amount]
      by_cases hta0 : ta > 0
      · simp only [if_pos hta0]
        by_cases hp : hv / ta > 0
        · simp only [if_pos hp]
          constructor
          · exact le_min (div_nonneg (le_of_lt hval) (le_of_lt hp)) hta
          · exact min_le_right _ _
        · simp only [if_neg hp]
          exact ⟨le_refl 0, hta⟩
      · simp only [if_neg hta0, lt_irrefl, if_false, gt_iff_lt]
        exact ⟨le_refl 0, hta⟩
  | plain q =>
      simp only [validate_sell_amount, Bool.and_eq_true, decide_eq_true_eq] at hval
      obtain ⟨h0, h100⟩ := hval
      simp only [parse_sell_amount]
      constructor
      · exact mul_nonneg hta (div_nonneg (le_of_lt h0) (by norm_num))
      · apply mul_le_of_le_one_right hta
        rw [div_le_one (by norm_num)]
        exact h100

/-- Witness for Claim C10: selling 50% of a 10-token position worth 100
USD. -/
theorem c10_parse_sell_amount_witness :
    0 ≤ parse_sell_amount (.pct 50) 100 10
    ∧ parse_sell_amount (.pct 50) 100 10 ≤ 10 :=
  c10_parse_sell_amount_bounded (.pct 50) 100 10
    (by norm_num [validate_sell_amount]) (by norm_num) (by norm_num)

/-- With pairwise-distinct strategy names, a table containing a row named
`nm` contains exactly one row named `nm`. -/
lemma countP_name_eq_one (tbl : List StrategyRow) (nm : String)
    (hnodup : (tbl.map (fun r => r.strategy.name)).Nodup)
    (hmem : tbl.any (fun r => r.strategy.name == nm) = true) :
    tbl.countP (fun r => r.strategy.name == nm) = 1 := by
  induction tbl with
  | nil => simp at hmem
  | cons r rs ih =>
      simp only [List.map_cons, List.nodup_cons] at hnodup
      obtain ⟨hhead, htail⟩ := hnodup
      by_cases hr : r.strategy.name = nm
      · rw [List.countP_cons]
        have hz : rs.countP (fun x => x.strategy.name == nm) = 0 := by
          rw [List.countP_eq_zero]
          intro x hx
          simp only [beq_iff_eq]
          intro hxnm
          exact hhead (hxnm.trans hr.symm ▸ List.mem_map_of_mem _ hx)
        simp [hz, hr]
      · rw [List.countP_cons]
        have hstep : rs.any (fun x => x.strategy.name == nm) = true := by
          rcases List.any_eq_true.mp hmem with ⟨x, hx, hxe⟩
          rcases List.mem_cons.mp hx with rfl | hx
          · exact absurd (by simpa using hxe) hr
          · exact List.any_eq_true.mpr ⟨x, hx, hxe⟩
        simp [ih htail hstep, beq_iff_eq, hr]

/-- Deactivating every row leaves no active row. -/
lemma countP_deactivated_zero (tbl : List StrategyRow) :
    (tbl.map (fun r => { r with is_active := false })).countP
      (fun r => r.is_active) = 0 := by
  rw [List.countP_eq_zero]
  intro x hx
  rcases List.mem_map.mp hx with ⟨r, -, rfl⟩
  simp

/-- Claim C6: after every `set_strategy` / `_save_strategy(is_active=True)`
call on a table with pairwise-distinct strategy names (the invariant
maintained by `_save_strategy`, the table's only writer), exactly one row is
active, and that row holds the strategy just saved: activating a new
strategy demotes every previously active row. -/
theorem c6_single_active_strategy (tbl : List StrategyRow)
    (s : TradingStrategy)
    (hnodup : (tbl.map (fun r => r.strategy.name)).Nodup) :
    (set_strategy_table tbl s).countP (fun r => r.is_active) = 1
    ∧ ∀ r ∈ set_strategy_table tbl s, r.is_active = true →
        r.strategy = s := by
  unfold set_strategy_table save_strategy
  simp only [eq_self_iff_true, if_true]
  by_cases hex : ((tbl.map (fun r => { r with is_active := false })).any
      (fun r => r.strategy.name == s.name)) = true
  · rw [if_pos hex]
    have hexOrig : tbl.any (fun r => r.strategy.name == s.name) = true := by
      simpa [List.any_map, Function.comp] using hex
    constructor
    · rw [List.countP_map, List.countP_map,
        ← countP_name_eq_one tbl s.name hnodup hexOrig]
      apply List.countP_congr
      intro a _
      by_cases hr : (a.strategy.name == s.name) = true <;>
        simp [Function.comp, strategyRowOf, hr]
    · intro r hr hact
      rcases List.mem_map.mp hr with ⟨r1, hr1, rfl⟩
      rcases List.mem_map.mp hr1 with ⟨r0, -, rfl⟩
      by_cases hm : (r0.strategy.name == s.name) = true
      · simp only [hm, if_true, strategyRowOf]
      · simp only [hm] at hact
        simp at hact
  · rw [if_neg hex]
    constructor
    · rw [List.countP_append, countP_deactivated_zero]
      simp [strategyRowOf]
    · intro r hr hact
      rcases List.mem_append.mp hr with hr | hr
      · rcases List.mem_map.mp hr with ⟨r0, -, rfl⟩
        simp at hact
      · rcases List.mem_singleton.mp hr with rfl
        rfl

/-- The first strategy row of the Claim C6 witness table. -/
def c6_balancedRow : StrategyRow where
  strategy :=
    { name := "balanced"
      max_trade_usd := 100
      auto_execute_under_usd := 25
      max_loss_pct := 10
      slippage_bps := 100
      require_rugcheck := true }
  is_active := true

/-- The second strategy row of the Claim C6 witness table. -/
def c6_degenRow : StrategyRow where
  strategy :=
    { name := "degen"
      max_trade_usd := 1000
      auto_execute_under_usd := 100
      max_loss_pct := 50
      slippage_bps := 500
      require_rugcheck := false }
  is_active := false

/-- A concrete pre-state for the Claim C6 witness: one active and one
inactive strategy row. -/
def c6_table : List StrategyRow := [c6_balancedRow, c6_degenRow]

/-- The strategy saved in the Claim C6 witness. -/
def c6_newStrategy : TradingStrategy where
  name := "conservative"
  max_trade_usd := 25
  auto_execute_under_usd := 10
  max_loss_pct := 5
  slippage_bps := 50
  require_rugcheck := true

/-- Witness for Claim C6 on a two-row table with a previously active
strategy. -/
theorem c6_single_active_strategy_witness :
    (set_strategy_table c6_table c6_newStrategy).countP
      (fun r => r.is_active) = 1
    ∧ ∀ r ∈ set_strategy_table c6_table c6_newStrategy,
        r.is_active = true → r.strategy = c6_newStrategy :=
  c6_single_active_strategy c6_table c6_newStrategy (by
    simp [c6_table, c6_balancedRow, c6_degenRow])

/-- Witness for the amended Claim C1 at the empty plaintext/env state. -/
theorem c1_decrypt_failure_amended_witness :
    (∃ msg,
        load_local_wallet { walletEnc := .undecryptable, walletPlain := none, envKey := none } true
          = .error msg)
    ∧ load_local_wallet { walletEnc := .absent, walletPlain := none, envKey := none } true
        = .ok none
    ∧ load_local_wallet { walletEnc := .undecryptable, walletPlain := none, envKey := none } false
        = .ok none
    ∧ load_local_wallet { walletEnc := .absent, walletPlain := none, envKey := none } false
        = .ok none
    ∧ get_or_create_wallet { walletEnc := .undecryptable, walletPlain := none, envKey := none }
        = .generatedNew :=
  c1_decrypt_failure_amended none none

/-- Witness for Claim C7 with entry price 1 and observations 2 then 3/2. -/
theorem c7_trailing_peak_witness :
    ∃ v, (target_after_observations
        (add_target_row 1 "M" "trailing_stop" 20 "all" (some 1) none)
        [2, 3/2]).peak_value = some v
      ∧ (1 : ℚ) ≤ v ∧ ∀ p ∈ [(2 : ℚ), 3/2], p ≤ v :=
  c7_trailing_peak_invariant 1 "M" 20 "all" 1 none [2, 3/2]

/-- Witness for Claim C8 with the default policy config. -/
theorem c8_policy_caps_witness :
    (CheckTag.slippage ∈
        (check_policy "a" "b" 1 (PolicyConfig.MAX_SLIPPAGE_BPS {}) none {}).checks_passed
      ∧ CheckTag.slippage ∉
          (check_policy "a" "b" 1 (PolicyConfig.MAX_SLIPPAGE_BPS {}) none {}).checks_failed)
    ∧ CheckTag.slippage ∈
        (check_policy "a" "b" 1 (PolicyConfig.MAX_SLIPPAGE_BPS {} + 1) none {}).checks_failed
    ∧ (CheckTag.tradeSize ∈
        (check_policy "a" "b" (PolicyConfig.MAX_TRADE_USD {}) 1 none {}).checks_passed
      ∧ CheckTag.tradeSize ∉
          (check_policy "a" "b" (PolicyConfig.MAX_TRADE_USD {}) 1 none {}).checks_failed)
    ∧ CheckTag.tradeSize ∈
        (check_policy "a" "b" (PolicyConfig.MAX_TRADE_USD {} + 1) 1 none {}).checks_failed :=
  c8_policy_caps_inclusive {} "a" "b" 1 1 none

end SlopeSniper
